import Mathlib

/-!
Shallow embedding of `src/limit.rs` from the diesel-postgres repository:
the counted-limit query wrapper (`CountedLimitQuery`, its `QueryFragment`
rendering `walk_ast`, the builder methods `limit`/`offset`, the DSL entry
point `counted_limit`, and the terminal `load_with_total`).

Rust `u32` values are embedded as `Nat` (interface values satisfy `< 2^32`);
Rust `i64` values as `Int`; the widening cast `u32 as i64` reduces the `Nat`
modulo `2^32` (the `u32` range) before injecting into `Int`.  Fallible
operations (`QueryResult`) are embedded as `Except E _` with an abstract
error type `E`.
-/

/-- Embeds the Rust struct `CountedLimitQuery<T> { query, limit: u32, offset: u32 }`.
The `limit` and `offset` fields hold `u32` values, embedded as `Nat`. -/
structure CountedLimitQuery (T : Type) where
  query : T
  limit : Nat
  offset : Nat
deriving Repr, DecidableEq

/-- Embeds the Rust struct `CountedLimitResult<T> { results: Vec<T>, count: i64 }`. -/
structure CountedLimitResult (T : Type) where
  results : List T
  count : Int
deriving Repr, DecidableEq

/-- The Rust widening cast `x as i64` applied to a `u32` value embedded as a `Nat`:
the value is first reduced to the `u32` range (`% 2^32`), then injected into `Int`.
For every genuine `u32` value (`n < 2^32`) the cast is exact. -/
def u32_as_i64 (n : Nat) : Int := Int.ofNat (n % 2 ^ 32)

/-- One element of the output accumulated by diesel's `AstPass`:
either a literal SQL text fragment (`push_sql`) or a bound parameter of SQL
type `BigInt` (`push_bind_param::<BigInt, _>`). -/
inductive AstElem
  | sql (s : String)
  | bindBigInt (v : Int)
deriving Repr, DecidableEq

/-- Embeds `CountedLimitQuery::walk_ast` from `src/limit.rs` (lines 34-42):
pushes `SELECT *, COUNT(*) OVER () FROM (`, walks the inner query's AST
(`inner` is the inner type's `walk_ast`; its failure propagates via `?`),
pushes `) AS x LIMIT `, binds `limit as i64` as a `BigInt` parameter,
pushes ` OFFSET `, and binds `offset as i64` as a `BigInt` parameter. -/
def CountedLimitQuery.walk_ast {T E : Type} (inner : T → Except E (List AstElem))
    (q : CountedLimitQuery T) : Except E (List AstElem) :=
  match inner q.query with
  | Except.error e => Except.error e
  | Except.ok innerFrag =>
      Except.ok
        ([AstElem.sql "SELECT *, COUNT(*) OVER () FROM ("] ++ innerFrag ++
          [AstElem.sql ") AS x LIMIT ", AstElem.bindBigInt (u32_as_i64 q.limit),
           AstElem.sql " OFFSET ", AstElem.bindBigInt (u32_as_i64 q.offset)])

/-- Embeds the builder method `CountedLimitQuery::limit` (lines 56-58):
`CountedLimitQuery { limit, ..self }`. -/
def CountedLimitQuery.setLimit {T : Type} (w : CountedLimitQuery T) (limit : Nat) :
    CountedLimitQuery T :=
  { w with limit := limit }

/-- Embeds the builder method `CountedLimitQuery::offset` (lines 51-53):
`CountedLimitQuery { offset, ..self }`. -/
def CountedLimitQuery.setOffset {T : Type} (w : CountedLimitQuery T) (offset : Nat) :
    CountedLimitQuery T :=
  { w with offset := offset }

/-- Embeds `CountedLimitDsl::counted_limit` (lines 77-85): wraps
`self.as_query()` with the given limit and `offset: 0`.  The ambient
`AsQuery` conversion is passed explicitly as `asQuery`. -/
def counted_limit {S T : Type} (asQuery : S → T) (s : S) (limit : Nat) :
    CountedLimitQuery T :=
  { query := asQuery s, limit := limit, offset := 0 }

/-- Modelled from the spec: the construction contract
`counted_limit(base_query, limit[, offset])` admits an optional explicit
`offset` argument; the source only provides the two-argument form plus the
`.offset` builder, so the three-argument constructor is taken from the
spec's words: it wraps the query with the given `limit` and `offset`. -/
def counted_limit_with_offset {S T : Type} (asQuery : S → T) (s : S)
    (limit offset : Nat) : CountedLimitQuery T :=
  { query := asQuery s, limit := limit, offset := offset }

/-- The pure success path of `CountedLimitQuery::load_with_total`
(lines 60-74), applied to the decoded row list `db_result` returned by
`self.load::<(U, i64)>(conn)`: `total` is `db_result.get(0)`'s count
component, defaulting to `0` when absent; `results` drops the count
component of every row, preserving order. -/
def load_with_total_ok {U : Type} (db_result : List (U × Int)) : CountedLimitResult U :=
  let total := (db_result.head?.map Prod.snd).getD 0
  let results := db_result.map Prod.fst
  { results := results, count := total }

/-- Embeds `CountedLimitQuery::load_with_total` (lines 60-74): the `?` on
`self.load::<(U, i64)>(conn)` propagates the underlying load error
unchanged; on success the pure tail `load_with_total_ok` runs. -/
def load_with_total {E U : Type} (loaded : Except E (List (U × Int))) :
    Except E (CountedLimitResult U) :=
  match loaded with
  | Except.error e => Except.error e
  | Except.ok db_result => Except.ok (load_with_total_ok db_result)

/-- Database model for the rendered SQL
`SELECT *, COUNT(*) OVER () FROM (inner) AS x LIMIT l OFFSET o`:
the inner query's unlimited result is the list `rows`; the window function
annotates every surviving row with the total row count `rows.length`
before `LIMIT`/`OFFSET` applies; then `OFFSET` skips `off` rows and
`LIMIT` keeps at most `lim`. -/
def dbExecute {U : Type} (rows : List U) (lim off : Nat) : List (U × Int) :=
  (((rows.map (fun r => (r, (rows.length : Int)))).drop off).take lim)

/-- Erases bound parameter values from an `AstPass` output, keeping the
literal SQL fragments and the positions (but not values) of the binds:
two outputs agree under this map exactly when their literal SQL text and
bind structure coincide. -/
def eraseBindValues (l : List AstElem) : List (Option String) :=
  l.map fun e =>
    match e with
    | AstElem.sql s => some s
    | AstElem.bindBigInt _ => none

/-- SQL types appearing in the repository's declared query shapes
(`diesel::sql_types`): `BigInt`, `Integer`, `Text`, and tuples. -/
inductive SqlType
  | bigInt
  | integer
  | text
  | tuple2 (a b : SqlType)
deriving Repr, DecidableEq

/-- The Rust type each SQL type decodes to at the execution layer:
`BigInt` decodes to `i64` (embedded as `Int`), `Integer` to `i32`
(embedded as `Int`), `Text` to `String`, tuples to pairs. -/
def SqlType.interp : SqlType → Type
  | SqlType.bigInt => Int
  | SqlType.integer => Int
  | SqlType.text => String
  | SqlType.tuple2 a b => a.interp × b.interp

/-- Embeds `impl<T: Query> Query for CountedLimitQuery<T>` (lines 45-47):
`type SqlType = (T::SqlType, BigInt)`. -/
def countedLimitSqlType (innerSql : SqlType) : SqlType :=
  SqlType.tuple2 innerSql SqlType.bigInt

/-- The wrappers reachable through the public interface of `src/limit.rs`:
built by `counted_limit` and transformed by the `limit`/`offset` builder
methods, each of which only accepts a `u32` argument (`n < 2^32`). -/
inductive Reached {S T : Type} (asQuery : S → T) : CountedLimitQuery T → Prop
  | base (s : S) (n : Nat) (hn : n < 2 ^ 32) :
      Reached asQuery (counted_limit asQuery s n)
  | stepLimit {w : CountedLimitQuery T} (n : Nat) (hn : n < 2 ^ 32) :
      Reached asQuery w → Reached asQuery (w.setLimit n)
  | stepOffset {w : CountedLimitQuery T} (n : Nat) (hn : n < 2 ^ 32) :
      Reached asQuery w → Reached asQuery (w.setOffset n)

theorem eraseBindValues_append (l1 l2 : List AstElem) :
    eraseBindValues (l1 ++ l2) = eraseBindValues l1 ++ eraseBindValues l2 :=
  List.map_append _ _ _

theorem head?_take_pos {α : Type} (l : List α) (n : Nat) (hn : 0 < n) :
    (l.take n).head? = l.head? := by
  cases l with
  | nil => simp
  | cons a t =>
    cases n with
    | zero => exact absurd hn (by simp)
    | succ k => rfl

theorem head?_drop_eq {α : Type} (l : List α) (n : Nat) :
    (l.drop n).head? = l[n]? := by
  induction l generalizing n with
  | nil => cases n <;> rfl
  | cons a t ih =>
    cases n with
    | zero => simp
    | succ k => simp [ih k]

/-- C6: the `limit` builder is last-write-wins: `w.limit(a).limit(b)` is the
same wrapper value as `w.limit(b)`; earlier writes neither accumulate nor
touch any other field. -/
theorem setLimit_last_write_wins {T : Type} (w : CountedLimitQuery T) (a b : Nat) :
    (w.setLimit a).setLimit b = w.setLimit b := rfl

/-- C7: `.limit(n)` returns a new wrapper whose `limit` field is `n` with the
inner query and `offset` unchanged, and `.offset(n)` returns a new wrapper
whose `offset` field is `n` with the inner query and `limit` unchanged; the
original wrapper value is consumed, never mutated (value semantics). -/
theorem setters_frame {T : Type} (w : CountedLimitQuery T) (n : Nat) :
    ((w.setLimit n).limit = n ∧ (w.setLimit n).query = w.query ∧
      (w.setLimit n).offset = w.offset) ∧
    ((w.setOffset n).offset = n ∧ (w.setOffset n).query = w.query ∧
      (w.setOffset n).limit = w.limit) :=
  ⟨⟨rfl, rfl, rfl⟩, ⟨rfl, rfl, rfl⟩⟩

/-- C5: `counted_limit(q, n)` constructs a wrapper whose `offset` field is 0,
and that wrapper is identical to the spec's three-argument
`counted_limit(q, n, 0)`. -/
theorem counted_limit_default_offset {S T : Type} (asQuery : S → T) (s : S) (n : Nat) :
    (counted_limit asQuery s n).offset = 0 ∧
    counted_limit asQuery s n = counted_limit_with_offset asQuery s n 0 :=
  ⟨rfl, rfl⟩

/-- C8: when the underlying load step fails, `load_with_total` returns exactly
the underlying error, unwrapped and unretried, and produces no
`CountedLimitResult` at all. -/
theorem load_with_total_error_passthrough {E U : Type} (e : E) :
    load_with_total (Except.error e : Except E (List (U × Int))) = Except.error e := rfl

/-- C2: on a successful load of the decoded row sequence `l` of `(T, i64)`
pairs, `load_with_total` returns the result whose `count` is the i64
component of the first pair (0 when `l` is empty) and whose `results` are
exactly the `T` components of `l` in order, the count column stripped. -/
theorem load_with_total_ok_shape {E U : Type} (l : List (U × Int)) :
    load_with_total (Except.ok l : Except E (List (U × Int))) =
      Except.ok
        { results := l.map Prod.fst,
          count := match l with
            | [] => 0
            | (_, c) :: _ => c } := by
  cases l with
  | nil => rfl
  | cons p t => rfl

/-- C9: the wrapper's declared SQL output shape is the pair of the inner
query's shape and `BigInt`, so the execution layer decodes each row as a
`(T, i64)` pair. -/
theorem counted_query_sql_type (S : SqlType) :
    countedLimitSqlType S = SqlType.tuple2 S SqlType.bigInt ∧
    (countedLimitSqlType S).interp = (S.interp × Int) :=
  ⟨rfl, rfl⟩

/-- C3: when the inner query renders to the fragment list `frag`, the wrapper
renders exactly to `SELECT *, COUNT(*) OVER () FROM (` ++ `frag` ++
`) AS x LIMIT `, a `BigInt` bound parameter carrying the limit, ` OFFSET `,
and a `BigInt` bound parameter carrying the offset, in that order. -/
theorem walk_ast_fragments {T E : Type} (inner : T → Except E (List AstElem))
    (q : CountedLimitQuery T) (frag : List AstElem)
    (h : inner q.query = Except.ok frag) :
    q.walk_ast inner =
      Except.ok
        ([AstElem.sql "SELECT *, COUNT(*) OVER () FROM ("] ++ frag ++
          [AstElem.sql ") AS x LIMIT ", AstElem.bindBigInt (u32_as_i64 q.limit),
           AstElem.sql " OFFSET ", AstElem.bindBigInt (u32_as_i64 q.offset)]) := by
  unfold CountedLimitQuery.walk_ast
  rw [h]

/-- Witness for C3: a fake inner query with known rendered text
`SELECT id FROM t`, wrapped with limit 10 and offset 5. -/
theorem walk_ast_fragments_witness :
    CountedLimitQuery.walk_ast
        (fun _ => (Except.ok [AstElem.sql "SELECT id FROM t"] : Except Unit (List AstElem)))
        { query := (), limit := 10, offset := 5 } =
      Except.ok
        [AstElem.sql "SELECT *, COUNT(*) OVER () FROM (",
         AstElem.sql "SELECT id FROM t",
         AstElem.sql ") AS x LIMIT ", AstElem.bindBigInt 10,
         AstElem.sql " OFFSET ", AstElem.bindBigInt 5] :=
  walk_ast_fragments
    (fun _ => (Except.ok [AstElem.sql "SELECT id FROM t"] : Except Unit (List AstElem)))
    { query := (), limit := 10, offset := 5 } [AstElem.sql "SELECT id FROM t"] rfl

/-- C4: for a fixed inner query, the rendered output with bound parameter
values erased is identical across any two choices of limit and offset:
the literal SQL text never depends on the parameter values. -/
theorem walk_ast_text_independent_of_params {T E : Type}
    (inner : T → Except E (List AstElem)) (q : T) (a b a2 b2 : Nat) :
    Except.map eraseBindValues
        (CountedLimitQuery.walk_ast inner { query := q, limit := a, offset := b }) =
      Except.map eraseBindValues
        (CountedLimitQuery.walk_ast inner { query := q, limit := a2, offset := b2 }) := by
  unfold CountedLimitQuery.walk_ast
  cases h : inner q with
  | error e => rfl
  | ok frag => simp [Except.map, eraseBindValues_append, eraseBindValues]

/-- C1 counterexample: inner query with unlimited result `[42]` (N = 1),
limit 5, offset 2.  The page is empty (as the claim predicts) but the
returned total count is 0, not N = 1 as the claim states. -/
theorem load_with_total_count_cex :
    load_with_total (Except.ok (dbExecute ([42] : List Int) 5 2) :
        Except Unit (List (Int × Int))) =
      Except.ok { results := [], count := 0 } ∧
    (0 : Int) ≠ ((([42] : List Int).length : Int)) :=
  ⟨rfl, by decide⟩

/-- C1 amended: over the database model, for every limit, offset and inner
result list `rows` (N = `rows.length`), `load_with_total` succeeds with a
page of exactly `min limit (N - offset)` rows (`Nat` subtraction is
`max 0 (N - offset)`), and the total count equals N exactly when the page
is non-empty (`0 < limit` and `offset < N`); on an empty page the count
defaults to 0, so the unconditional `count = N` of the claim holds only
when N = 0. -/
theorem load_with_total_page_and_count {U : Type} (rows : List U) (lim off : Nat) :
    load_with_total (Except.ok (dbExecute rows lim off) : Except Unit (List (U × Int))) =
      Except.ok (load_with_total_ok (dbExecute rows lim off)) ∧
    (load_with_total_ok (dbExecute rows lim off)).results.length =
      min lim (rows.length - off) ∧
    (load_with_total_ok (dbExecute rows lim off)).count =
      (if 0 < lim ∧ off < rows.length then (rows.length : Int) else 0) := by
  refine ⟨rfl, ?_, ?_⟩
  · simp [load_with_total_ok, dbExecute]
  · unfold load_with_total_ok dbExecute
    by_cases hlim : 0 < lim
    · rw [head?_take_pos _ _ hlim, head?_drop_eq]
      by_cases hoff : off < rows.length
      · have hsome : (rows.map (fun r => (r, (rows.length : Int))))[off]? =
            some (rows[off], (rows.length : Int)) := by
          simp [List.getElem?_map, List.getElem?_eq_getElem hoff]
        simp [hsome, hlim, hoff]
      · have hnone : (rows.map (fun r => (r, (rows.length : Int))))[off]? = none := by
          simp [List.getElem?_eq_none_iff]
          omega
        simp [hnone, hoff]
    · have hz : lim = 0 := Nat.eq_zero_of_not_pos hlim
      subst hz
      simp

theorem u32_as_i64_exact {n : Nat} (hn : n < 2 ^ 32) : u32_as_i64 n = (n : Int) := by
  unfold u32_as_i64
  rw [Nat.mod_eq_of_lt hn]
  rfl

/-- C10: every wrapper reachable through the public interface (built by
`counted_limit` and the `limit`/`offset` builders, which only accept `u32`
arguments) has `limit` and `offset` below `2^32`, and the widening cast to
i64 performed at bind time is exact on both fields. -/
theorem reached_u32_invariant {S T : Type} (asQuery : S → T) (w : CountedLimitQuery T)
    (h : Reached asQuery w) :
    w.limit < 2 ^ 32 ∧ w.offset < 2 ^ 32 ∧
    u32_as_i64 w.limit = (w.limit : Int) ∧ u32_as_i64 w.offset = (w.offset : Int) := by
  induction h with
  | base s n hn =>
      exact ⟨hn, (by norm_num : (0 : Nat) < 2 ^ 32), u32_as_i64_exact hn,
        u32_as_i64_exact (by norm_num : (0 : Nat) < 2 ^ 32)⟩
  | stepLimit n hn hw ih =>
      exact ⟨hn, ih.2.1, u32_as_i64_exact hn, ih.2.2.2⟩
  | stepOffset n hn hw ih =>
      exact ⟨ih.1, hn, ih.2.2.1, u32_as_i64_exact hn⟩

/-- Witness for C10: the wrapper `counted_limit(q, 7).offset(3)` over a
trivial query is reachable and satisfies the invariant. -/
theorem reached_u32_invariant_witness :
    ((counted_limit (fun u : Unit => u) () 7).setOffset 3).limit < 2 ^ 32 ∧
    ((counted_limit (fun u : Unit => u) () 7).setOffset 3).offset < 2 ^ 32 ∧
    u32_as_i64 ((counted_limit (fun u : Unit => u) () 7).setOffset 3).limit =
      (((counted_limit (fun u : Unit => u) () 7).setOffset 3).limit : Int) ∧
    u32_as_i64 ((counted_limit (fun u : Unit => u) () 7).setOffset 3).offset =
      (((counted_limit (fun u : Unit => u) () 7).setOffset 3).offset : Int) :=
  reached_u32_invariant (fun u : Unit => u) _
    (Reached.stepOffset 3 (by decide) (Reached.base () 7 (by decide)))
